import Mathlib

/-!
Verification development for the Netflix Movies & TV Shows analysis app
(`src/app.py`).  The file shallowly embeds the data-normalization and
aggregation pipeline as executable Lean definitions and proves the
specified properties about them.

Text is represented as `String` (a structure wrapping `List Char` in this
toolchain), and the pandas string operations used by the source
(`str.replace`, `str.split`, `str.strip`, `fillna`, `isin`, `between`,
`value_counts`, `drop_duplicates`, `astype(int)`) are embedded as
executable list functions with the same per-element semantics.
-/

/-- A resolved calendar date, the result of successful date parsing
(`pd.to_datetime`). -/
structure Date where
  year : Nat
  month : Nat
  day : Nat
deriving DecidableEq, Repr

/-- One row of the source CSV, as raw cell text.  `none` models a missing
cell; `some ""` is an explicitly empty cell.  Only the columns the core
reads are kept. -/
structure RawRecord where
  type : Option String
  date_added : Option String
  country : Option String
  rating : Option String
  duration : Option String
  listed_in : Option String
deriving DecidableEq, Repr

/-- One row of the DataFrame produced by `pd.read_csv`: empty cells have
been converted to NA (`none`), per pandas' default `na_values`. -/
structure Row where
  type : Option String
  date_added : Option String
  country : Option String
  rating : Option String
  duration : Option String
  listed_in : Option String
deriving DecidableEq, Repr

/-- A row of the cleaned DataFrame returned by `load_data`: `date_added`
resolved (the column may in principle hold NaT, hence `Option`),
`year_added`/`month_added` derived, and the three categoricals filled
with the sentinel. -/
structure CleanRecord where
  type : Option String
  date_added : Option Date
  year_added : Option Nat
  month_added : Option Nat
  country : String
  rating : String
  duration : String
  listed_in : Option String
deriving DecidableEq, Repr

/-- Pandas `read_csv` NA conversion for one cell: an empty field becomes
NA. -/
def readCell (o : Option String) : Option String :=
  match o with
  | some "" => none
  | o => o

/-- `pd.read_csv` applied to one raw row. -/
def readCsv (r : RawRecord) : Row :=
  { type := readCell r.type
    date_added := readCell r.date_added
    country := readCell r.country
    rating := readCell r.rating
    duration := readCell r.duration
    listed_in := readCell r.listed_in }

/-- Whitespace test used by `str.strip` / `String.trim`. -/
def isWS (c : Char) : Bool :=
  c = ' ' || c = '\t' || c = '\n' || c = '\r'

/-- Strip leading and trailing whitespace from a character list. -/
def trimL (l : List Char) : List Char :=
  ((l.dropWhile isWS).reverse.dropWhile isWS).reverse

/-- Pandas `str.strip` / Python `str.strip()` on a string. -/
def strTrim (s : String) : String :=
  String.mk (trimL s.data)

/-- Fueled worker for substring replacement; the fuel is always called
with at least the length of the string, so the `0` case is unreachable. -/
def replaceAllGo (pat repl : List Char) : Nat → List Char → List Char
  | _, [] => []
  | 0, s => s
  | fuel + 1, c :: rest =>
    if pat ≠ [] ∧ pat.isPrefixOf (c :: rest) then
      repl ++ replaceAllGo pat repl fuel ((c :: rest).drop pat.length)
    else
      c :: replaceAllGo pat repl fuel rest

/-- Replace every occurrence of `pat` by `repl`, left to right: the
semantics of pandas `Series.str.replace(pat, repl, regex=False)` and
Python `str.replace`. -/
def replaceAll (pat repl s : List Char) : List Char :=
  replaceAllGo pat repl s.length s

/-- String-valued version of `replaceAll`. -/
def strReplace (s pat repl : String) : String :=
  String.mk (replaceAll pat.data repl.data s.data)

/-- Fueled worker for splitting on a separator substring. -/
def splitGo (sep : List Char) : Nat → List Char → List Char → List (List Char)
  | _, acc, [] => [acc.reverse]
  | 0, acc, s => [acc.reverse ++ s]
  | fuel + 1, acc, c :: rest =>
    if sep ≠ [] ∧ sep.isPrefixOf (c :: rest) then
      acc.reverse :: splitGo sep fuel [] ((c :: rest).drop sep.length)
    else
      splitGo sep fuel (c :: acc) rest

/-- Split a character list on a (nonempty) separator substring: the
semantics of Python `str.split(sep)` / pandas `str.split`. -/
def splitOnL (sep s : List Char) : List (List Char) :=
  splitGo sep s.length [] s

/-- String-valued version of `splitOnL`. -/
def strSplitOn (sep s : String) : List String :=
  (splitOnL sep.data s.data).map String.mk

/-- Accumulate decimal digits; fails on any non-digit. -/
def digitsAux (acc : Nat) : List Char → Option Nat
  | [] => some acc
  | c :: cs => if c.isDigit then digitsAux (acc * 10 + (c.toNat - 48)) cs else none

/-- Parse a nonempty all-digit character list as a natural number. -/
def digitsToNat : List Char → Option Nat
  | [] => none
  | l => digitsAux 0 l

/-- Python `int(str)`: strips surrounding whitespace, accepts an optional
sign followed by decimal digits, errors (here `none`) on anything else.
This is the per-element behaviour of `Series.astype(int)` on a string
column. -/
def pyInt (s : String) : Option Int :=
  match trimL s.data with
  | '-' :: rest => (digitsToNat rest).map (fun n => -(n : Int))
  | '+' :: rest => (digitsToNat rest).map (fun n => (n : Int))
  | l => (digitsToNat l).map (fun n => (n : Int))

/-- English month names as used in the dataset's `date_added` column. -/
def monthNum (s : String) : Option Nat :=
  if s = "January" then some 1
  else if s = "February" then some 2
  else if s = "March" then some 3
  else if s = "April" then some 4
  else if s = "May" then some 5
  else if s = "June" then some 6
  else if s = "July" then some 7
  else if s = "August" then some 8
  else if s = "September" then some 9
  else if s = "October" then some 10
  else if s = "November" then some 11
  else if s = "December" then some 12
  else none

/-- Models `pd.to_datetime(col, errors="coerce")` for the date format the
dataset uses (`"Month D, YYYY"`, with optional surrounding whitespace).
NA input, empty or whitespace-only text, and any unrecognized text all
coerce to NaT (`none`) rather than raising. -/
def to_datetime : Option String → Option Date
  | none => none
  | some s =>
    let t := strTrim s
    if t = "" then none
    else
      match strSplitOn ", " t with
      | [md, y] =>
        match strSplitOn " " md with
        | [mName, d] =>
          match monthNum mName, digitsToNat d.data, digitsToNat y.data with
          | some m, some da, some yr =>
            if 1 ≤ da ∧ da ≤ 31 then some ⟨yr, m, da⟩ else none
          | _, _, _ => none
        | _ => none
      | _ => none

/-- The per-row part of `load_data`: resolve `date_added` (rows that do
not resolve are dropped, i.e. `none`), derive `year_added`/`month_added`,
and `fillna("Unknown")` the three categoricals. -/
def parseRow (row : Row) : Option CleanRecord :=
  match to_datetime row.date_added with
  | none => none
  | some d =>
    some { type := row.type
           date_added := some d
           year_added := some d.year
           month_added := some d.month
           country := row.country.getD "Unknown"
           rating := row.rating.getD "Unknown"
           duration := row.duration.getD "Unknown"
           listed_in := row.listed_in }

/-- Worker for first-occurrence deduplication, carrying the set of values
already emitted. -/
def dedupFirstAux [DecidableEq α] (seen : List α) : List α → List α
  | [] => []
  | a :: as =>
    if a ∈ seen then dedupFirstAux seen as
    else a :: dedupFirstAux (a :: seen) as

/-- `DataFrame.drop_duplicates()`: remove fully identical rows, keeping
the first occurrence, preserving order. -/
def dedupFirst [DecidableEq α] (l : List α) : List α :=
  dedupFirstAux [] l

/-- The `load_data` pipeline of `src/app.py`: read the CSV, drop duplicate
rows, coerce `date_added`, drop rows whose date did not resolve, derive
year/month, and fill the missing categoricals with `"Unknown"`. -/
def load_data (raw : List RawRecord) : List CleanRecord :=
  (dedupFirst (raw.map readCsv)).filterMap parseRow

/-- `df['date_added'].isna().sum()` as computed in `src/app.py` (lines
43–45): the NA count of the `date_added` column of the dataframe it is
given. -/
def missing_dates (df : List CleanRecord) : Nat :=
  (df.filter (fun r => r.date_added.isNone)).length

/-- The sidebar filter state: inclusive year range, selected types,
selected countries. -/
structure FilterSpec where
  yearLo : Nat
  yearHi : Nat
  types : List String
  countries : List String

/-- `Series.between(lo, hi, inclusive="both")` on a possibly-NA year:
NA compares false. -/
def betweenB (o : Option Nat) (lo hi : Nat) : Bool :=
  match o with
  | none => false
  | some y => decide (lo ≤ y) && decide (y ≤ hi)

/-- `Series.isin(xs)` on a possibly-NA string: NA is never a member. -/
def optIsin (o : Option String) (xs : List String) : Bool :=
  match o with
  | none => false
  | some t => decide (t ∈ xs)

/-- The row predicate of the `df_filtered` boolean mask in `src/app.py`
(lines 71–75). -/
def keepRow (spec : FilterSpec) (r : CleanRecord) : Bool :=
  betweenB r.year_added spec.yearLo spec.yearHi
    && optIsin r.type spec.types
    && decide (r.country ∈ spec.countries)

/-- `df_filtered`: the rows of the clean dataframe passing the mask, in
order. -/
def df_filtered (df : List CleanRecord) (spec : FilterSpec) : List CleanRecord :=
  df.filter (keepRow spec)

/-- Number of occurrences of `a` in `l` (multiplicity). -/
def countEq [DecidableEq α] (l : List α) (a : α) : Nat :=
  (l.filter (fun x => decide (x = a))).length

/-- Index of the first occurrence of `a` in `l` (length of `l` when
absent): the position used for first-encountered tie-breaking. -/
def firstIdx [DecidableEq α] : List α → α → Nat
  | [], _ => 0
  | b :: bs, a => if a = b then 0 else firstIdx bs a + 1

/-- Stable insertion (by count, descending) used to model the stable sort
inside `Series.value_counts`. -/
def insertByCount (a : α × Nat) : List (α × Nat) → List (α × Nat)
  | [] => [a]
  | b :: bs => if b.2 ≤ a.2 then a :: b :: bs else b :: insertByCount a bs

/-- Stable sort by count, descending. -/
def sortByCountDesc : List (α × Nat) → List (α × Nat)
  | [] => []
  | a :: as => insertByCount a (sortByCountDesc as)

/-- `Series.value_counts()`: tally the values (keys in first-encountered
order, as produced by the underlying hash table) and stably sort the
(value, count) pairs by count, descending. -/
def value_counts [DecidableEq α] (l : List α) : List (α × Nat) :=
  sortByCountDesc ((dedupFirst l).map (fun k => (k, countEq l k)))

/-- `df_filtered['country'].value_counts().head(n)` (`src/app.py` line
138 uses `n = 10`). -/
def top_countries (df : List CleanRecord) (n : Nat) : List (String × Nat) :=
  (value_counts (df.map (fun r => r.country))).take n

/-- The genre tokens contributed by one record:
`str.split(',')` then `explode()` then `str.strip()`; an NA `listed_in`
yields NA, which `value_counts` drops, so it contributes nothing. -/
def recordTokens (r : CleanRecord) : List String :=
  match r.listed_in with
  | none => []
  | some s => (strSplitOn "," s).map strTrim

/-- All genre tokens of a record list, in order (`src/app.py` line 169). -/
def genreTokens : List CleanRecord → List String
  | [] => []
  | r :: rs => recordTokens r ++ genreTokens rs

/-- `genres.value_counts().head(n)` (`src/app.py` line 170 uses
`n = 15`). -/
def top_genres (df : List CleanRecord) (n : Nat) : List (String × Nat) :=
  (value_counts (genreTokens df)).take n

/-- The Movie-only subset of a record list. -/
def moviesOf (df : List CleanRecord) : List CleanRecord :=
  df.filter (fun r => decide (r.type = some "Movie"))

/-- The TV Show-only subset of a record list. -/
def tvOf (df : List CleanRecord) : List CleanRecord :=
  df.filter (fun r => decide (r.type = some "TV Show"))

/-- `List.mapM` over `Option`, written out: the whole computation fails
(`none`) as soon as any element fails, modelling a raising
`Series.astype(int)`. -/
def mapMOpt (f : α → Option β) : List α → Option (List β)
  | [] => some []
  | a :: as =>
    match f a, mapMOpt f as with
    | some b, some bs => some (b :: bs)
    | _, _ => none

/-- One movie row of
`movies['duration'].str.replace(" min", "", regex=False).replace("Unknown", 0).astype(int)`
(`src/app.py` lines 204–208): delete every occurrence of `" min"`, map the
`"Unknown"` sentinel to `0`, and otherwise convert with Python `int`,
raising (`none`) when that fails. -/
def rowMinutes (s : String) : Option Int :=
  let s1 := strReplace s " min" ""
  if s1 = "Unknown" then some 0 else pyInt s1

/-- The `movies['minutes']` column: `rowMinutes` over the Movie-only
subset; any row failure raises for the whole column. -/
def durationMinutes (df : List CleanRecord) : Option (List Int) :=
  mapMOpt (fun r => rowMinutes r.duration) (moviesOf df)

/-- One TV-show row of
`tv_shows['duration'].str.replace(" Season", "", regex=False).str.replace("s", "", regex=False).replace("Unknown", 0).astype(int)`
(`src/app.py` lines 220–225). -/
def rowSeasons (s : String) : Option Int :=
  let s1 := strReplace s " Season" ""
  let s2 := strReplace s1 "s" ""
  if s2 = "Unknown" then some 0 else pyInt s2

/-- The `tv_shows['seasons']` column over the TV Show-only subset. -/
def tvSeasons (df : List CleanRecord) : Option (List Int) :=
  mapMOpt (fun r => rowSeasons r.duration) (tvOf df)

/-- `tv_shows['seasons'].value_counts().head(10)` (`src/app.py` line
226). -/
def seasonCounts (df : List CleanRecord) : Option (List (Int × Nat)) :=
  (tvSeasons df).map (fun s => (value_counts s).take 10)

/-! ### Helper lemmas about the embedded list operations -/

theorem mem_dedupFirstAux [DecidableEq α] (l : List α) :
    ∀ (seen : List α) (x : α), x ∈ dedupFirstAux seen l ↔ x ∈ l ∧ x ∉ seen := by
  induction l with
  | nil => intro seen x; simp [dedupFirstAux]
  | cons a as ih =>
    intro seen x
    by_cases h : a ∈ seen
    · simp only [dedupFirstAux, if_pos h, ih, List.mem_cons]
      constructor
      · rintro ⟨hx, hs⟩; exact ⟨Or.inr hx, hs⟩
      · rintro ⟨rfl | hx, hs⟩
        · exact absurd h hs
        · exact ⟨hx, hs⟩
    · simp only [dedupFirstAux, if_neg h, List.mem_cons, ih]
      by_cases hxa : x = a
      · subst hxa; simp [h]
      · simp [hxa, not_or]

theorem dedupFirst_mem [DecidableEq α] (l : List α) (x : α) :
    x ∈ dedupFirst l ↔ x ∈ l := by
  simp [dedupFirst, mem_dedupFirstAux]

theorem nodup_dedupFirstAux [DecidableEq α] (l : List α) :
    ∀ seen : List α, (dedupFirstAux seen l).Nodup := by
  induction l with
  | nil => intro seen; simp [dedupFirstAux]
  | cons a as ih =>
    intro seen
    by_cases h : a ∈ seen
    · simpa only [dedupFirstAux, if_pos h] using ih seen
    · simp only [dedupFirstAux, if_neg h]
      refine List.nodup_cons.mpr ⟨fun hmem => ?_, ih _⟩
      exact ((mem_dedupFirstAux as _ a).mp hmem).2 (List.mem_cons_self _ _)

theorem nodup_dedupFirst [DecidableEq α] (l : List α) : (dedupFirst l).Nodup :=
  nodup_dedupFirstAux l []

theorem firstIdx_cons [DecidableEq α] (b : α) (bs : List α) (a : α) :
    firstIdx (b :: bs) a = if a = b then 0 else firstIdx bs a + 1 := rfl

theorem pairwiseImpMem {R S : β → β → Prop} :
    ∀ {l : List β}, (∀ x y, x ∈ l → y ∈ l → R x y → S x y) → l.Pairwise R → l.Pairwise S := by
  intro l
  induction l with
  | nil => intro _ _; exact List.Pairwise.nil
  | cons b bs ih =>
    intro h hp
    rcases List.pairwise_cons.mp hp with ⟨h1, h2⟩
    refine List.pairwise_cons.mpr ⟨?_, ?_⟩
    · intro y hy
      exact h b y (List.mem_cons_self _ _) (List.mem_cons_of_mem _ hy) (h1 y hy)
    · exact ih (fun x y hx hy => h x y (List.mem_cons_of_mem _ hx) (List.mem_cons_of_mem _ hy)) h2

theorem pairwise_firstIdx_dedupFirstAux [DecidableEq α] (l : List α) :
    ∀ seen : List α,
      (dedupFirstAux seen l).Pairwise (fun x y => firstIdx l x < firstIdx l y) := by
  induction l with
  | nil => intro seen; simp [dedupFirstAux]
  | cons a as ih =>
    intro seen
    by_cases h : a ∈ seen
    · simp only [dedupFirstAux, if_pos h]
      refine pairwiseImpMem (fun x y hx hy hR => ?_) (ih seen)
      have hxa : x ≠ a := fun e => ((mem_dedupFirstAux as seen x).mp hx).2 (e ▸ h)
      have hya : y ≠ a := fun e => ((mem_dedupFirstAux as seen y).mp hy).2 (e ▸ h)
      simp only [firstIdx_cons, if_neg hxa, if_neg hya]
      omega
    · simp only [dedupFirstAux, if_neg h]
      refine List.pairwise_cons.mpr ⟨?_, ?_⟩
      · intro y hy
        have hya : y ≠ a :=
          fun e => ((mem_dedupFirstAux as _ y).mp hy).2 (e ▸ List.mem_cons_self a seen)
        simp [firstIdx_cons, hya]
      · refine pairwiseImpMem (fun x y hx hy hR => ?_) (ih (a :: seen))
        have hxa : x ≠ a :=
          fun e => ((mem_dedupFirstAux as _ x).mp hx).2 (e ▸ List.mem_cons_self a seen)
        have hya : y ≠ a :=
          fun e => ((mem_dedupFirstAux as _ y).mp hy).2 (e ▸ List.mem_cons_self a seen)
        simp only [firstIdx_cons, if_neg hxa, if_neg hya]
        omega

theorem countEq_cons [DecidableEq α] (b : α) (l : List α) (a : α) :
    countEq (b :: l) a = if b = a then countEq l a + 1 else countEq l a := by
  by_cases hb : b = a <;> simp [countEq, List.filter_cons, hb]

theorem filter_notMem_cons_len [DecidableEq α] (c : α) (u : List α) (s : List α) :
    (List.filter (fun x => decide (x ∉ s)) (c :: u)).length
      = (if c ∈ s then 0 else 1) + (List.filter (fun x => decide (x ∉ s)) u).length := by
  by_cases hc : c ∈ s
  · simp [List.filter_cons, hc]
  · simp [List.filter_cons, hc]
    omega

theorem filter_notMem_cons_split [DecidableEq α] (as : List α) (a : α) (seen : List α)
    (ha : a ∉ seen) :
    (as.filter (fun x => decide (x ∉ seen))).length
      = countEq as a + (as.filter (fun x => decide (x ∉ a :: seen))).length := by
  induction as with
  | nil => simp [countEq]
  | cons b t ih =>
    rw [filter_notMem_cons_len, filter_notMem_cons_len, countEq_cons]
    have hb5 : (b ∈ a :: seen) ↔ (b = a ∨ b ∈ seen) := List.mem_cons
    by_cases hba : b = a
    · subst hba
      rw [if_pos rfl, if_neg ha, if_pos (hb5.mpr (Or.inl rfl))]
      omega
    · rw [if_neg hba]
      by_cases hbs : b ∈ seen
      · rw [if_pos hbs, if_pos (hb5.mpr (Or.inr hbs))]
        omega
      · rw [if_neg hbs, if_neg (fun hx => (hb5.mp hx).elim hba hbs)]
        omega

theorem sum_countEq_dedupFirstAux [DecidableEq α] (l : List α) :
    ∀ seen : List α,
      ((dedupFirstAux seen l).map (fun k => countEq l k)).sum
        = (l.filter (fun x => decide (x ∉ seen))).length := by
  induction l with
  | nil => intro seen; simp [dedupFirstAux]
  | cons a as ih =>
    intro seen
    by_cases h : a ∈ seen
    · have hmap : (dedupFirstAux seen as).map (fun k => countEq (a :: as) k)
          = (dedupFirstAux seen as).map (fun k => countEq as k) := by
        refine List.map_congr_left (fun k hk => ?_)
        have hk2 := (mem_dedupFirstAux as seen k).mp hk
        have hak : a ≠ k := fun e => hk2.2 (e ▸ h)
        simp [countEq_cons, hak]
      rw [dedupFirstAux, if_pos h, hmap, ih seen, filter_notMem_cons_len, if_pos h]
      omega
    · have hmap : (dedupFirstAux (a :: seen) as).map (fun k => countEq (a :: as) k)
          = (dedupFirstAux (a :: seen) as).map (fun k => countEq as k) := by
        refine List.map_congr_left (fun k hk => ?_)
        have hk2 := (mem_dedupFirstAux as (a :: seen) k).mp hk
        have hak : a ≠ k := fun e => hk2.2 (e ▸ List.mem_cons_self a seen)
        simp [countEq_cons, hak]
      rw [dedupFirstAux, if_neg h, List.map_cons, List.sum_cons, hmap, ih (a :: seen),
        filter_notMem_cons_len, if_neg h, countEq_cons, if_pos rfl,
        filter_notMem_cons_split as a seen h]
      omega

theorem sum_countEq_dedupFirst [DecidableEq α] (l : List α) :
    ((dedupFirst l).map (fun k => countEq l k)).sum = l.length := by
  have h := sum_countEq_dedupFirstAux l []
  have hf : l.filter (fun x => decide (x ∉ ([] : List α))) = l := by
    induction l with
    | nil => rfl
    | cons b t ih => simp [List.filter_cons, ih]
  rw [dedupFirst, h, hf]

theorem insertByCount_perm (a : α × Nat) (l : List (α × Nat)) :
    (insertByCount a l).Perm (a :: l) := by
  induction l with
  | nil => exact List.Perm.refl _
  | cons b bs ih =>
    by_cases h : b.2 ≤ a.2
    · rw [insertByCount, if_pos h]
    · rw [insertByCount, if_neg h]
      exact (ih.cons b).trans (List.Perm.swap a b bs)

theorem sortByCountDesc_perm (l : List (α × Nat)) : (sortByCountDesc l).Perm l := by
  induction l with
  | nil => exact List.Perm.refl _
  | cons a as ih => exact (insertByCount_perm a (sortByCountDesc as)).trans (ih.cons a)

theorem insertByCount_sorted (a : α × Nat) (l : List (α × Nat))
    (hl : l.Pairwise (fun p q => q.2 ≤ p.2)) :
    (insertByCount a l).Pairwise (fun p q => q.2 ≤ p.2) := by
  induction l with
  | nil => simp [insertByCount]
  | cons b bs ih =>
    rcases List.pairwise_cons.mp hl with ⟨hb, hbs⟩
    by_cases h : b.2 ≤ a.2
    · rw [insertByCount, if_pos h]
      refine List.pairwise_cons.mpr ⟨?_, hl⟩
      intro c hc
      rcases List.mem_cons.mp hc with rfl | hc
      · exact h
      · exact le_trans (hb c hc) h
    · rw [insertByCount, if_neg h]
      refine List.pairwise_cons.mpr ⟨?_, ih hbs⟩
      intro c hc
      rcases List.mem_cons.mp ((insertByCount_perm a bs).mem_iff.mp hc) with rfl | hc2
      · omega
      · exact hb c hc2

theorem sortByCountDesc_sorted (l : List (α × Nat)) :
    (sortByCountDesc l).Pairwise (fun p q => q.2 ≤ p.2) := by
  induction l with
  | nil => simp [sortByCountDesc]
  | cons a as ih => exact insertByCount_sorted a _ ih

theorem insertByCount_ties {Q : α × Nat → α × Nat → Prop} (a : α × Nat) (l : List (α × Nat))
    (hl : l.Pairwise (fun p q => p.2 = q.2 → Q p q))
    (ha : ∀ b ∈ l, a.2 = b.2 → Q a b) :
    (insertByCount a l).Pairwise (fun p q => p.2 = q.2 → Q p q) := by
  induction l with
  | nil => simp [insertByCount]
  | cons b bs ih =>
    rcases List.pairwise_cons.mp hl with ⟨hb, hbs⟩
    by_cases h : b.2 ≤ a.2
    · rw [insertByCount, if_pos h]
      exact List.pairwise_cons.mpr ⟨ha, hl⟩
    · rw [insertByCount, if_neg h]
      refine List.pairwise_cons.mpr
        ⟨?_, ih hbs (fun c hc hq => ha c (List.mem_cons_of_mem _ hc) hq)⟩
      intro c hc
      rcases List.mem_cons.mp ((insertByCount_perm a bs).mem_iff.mp hc) with rfl | hc2
      · intro he; omega
      · exact hb c hc2

theorem sortByCountDesc_ties {Q : α × Nat → α × Nat → Prop} (l : List (α × Nat))
    (hl : l.Pairwise (fun p q => p.2 = q.2 → Q p q)) :
    (sortByCountDesc l).Pairwise (fun p q => p.2 = q.2 → Q p q) := by
  induction l with
  | nil => exact List.Pairwise.nil
  | cons a as ih =>
    rcases List.pairwise_cons.mp hl with ⟨ha, has⟩
    exact insertByCount_ties a _ (ih has)
      (fun b hb => ha b ((sortByCountDesc_perm as).mem_iff.mp hb))

theorem value_counts_mem [DecidableEq α] (l : List α) (p : α × Nat) :
    p ∈ value_counts l ↔ p.1 ∈ l ∧ p.2 = countEq l p.1 := by
  rw [value_counts, (sortByCountDesc_perm _).mem_iff]
  constructor
  · intro hp
    rcases List.mem_map.mp hp with ⟨k, hk, he⟩
    rcases he with rfl
    exact ⟨(dedupFirst_mem l k).mp hk, rfl⟩
  · rintro ⟨h1, h2⟩
    refine List.mem_map.mpr ⟨p.1, (dedupFirst_mem l p.1).mpr h1, ?_⟩
    rw [← h2]

theorem value_counts_sorted [DecidableEq α] (l : List α) :
    (value_counts l).Pairwise (fun p q => q.2 ≤ p.2) :=
  sortByCountDesc_sorted _

theorem value_counts_ties [DecidableEq α] (l : List α) :
    (value_counts l).Pairwise (fun p q => p.2 = q.2 → firstIdx l p.1 < firstIdx l q.1) := by
  apply sortByCountDesc_ties
  rw [List.pairwise_map]
  refine List.Pairwise.imp ?_ (pairwise_firstIdx_dedupFirstAux l [])
  intro a b h _
  exact h

theorem value_counts_sum [DecidableEq α] (l : List α) :
    ((value_counts l).map (fun p => p.2)).sum = l.length := by
  rw [value_counts, ((sortByCountDesc_perm _).map (fun p => p.2)).sum_eq, List.map_map]
  exact sum_countEq_dedupFirst l

theorem value_counts_keys_nodup [DecidableEq α] (l : List α) :
    ((value_counts l).map (fun p => p.1)).Nodup := by
  rw [value_counts]
  refine ((sortByCountDesc_perm _).map (fun p => p.1)).nodup_iff.mpr ?_
  rw [List.map_map]
  have hcomp : List.map ((fun p : α × Nat => p.1) ∘ fun k => (k, countEq l k)) (dedupFirst l)
      = dedupFirst l :=
    (List.map_congr_left (fun k _ => rfl)).trans (List.map_id _)
  rw [hcomp]
  exact nodup_dedupFirst l

theorem take_map_sum_le (l : List (α × Nat)) (n : Nat) :
    ((l.take n).map (fun p => p.2)).sum ≤ (l.map (fun p => p.2)).sum := by
  conv_rhs => rw [← List.take_append_drop n l]
  rw [List.map_append, List.sum_append]
  omega

theorem mapMOpt_eq_none_iff (f : α → Option β) (l : List α) :
    mapMOpt f l = none ↔ ∃ a ∈ l, f a = none := by
  induction l with
  | nil => simp [mapMOpt]
  | cons a as ih =>
    cases hfa : f a with
    | none =>
      simp only [mapMOpt, hfa]
      constructor
      · intro _; exact ⟨a, List.mem_cons_self _ _, hfa⟩
      · intro _; trivial
    | some b =>
      cases hrec : mapMOpt f as with
      | none =>
        simp only [mapMOpt, hfa, hrec]
        constructor
        · intro _
          rcases ih.mp hrec with ⟨c, hc, hfc⟩
          exact ⟨c, List.mem_cons_of_mem _ hc, hfc⟩
        · intro _; trivial
      | some bs =>
        simp only [mapMOpt, hfa, hrec]
        constructor
        · intro h; exact absurd h (by simp)
        · rintro ⟨c, hc, hfc⟩
          rcases List.mem_cons.mp hc with rfl | hc
          · exact absurd hfa (by simp [hfc])
          · exact absurd hrec (by simp [ih.mpr ⟨c, hc, hfc⟩])

theorem filter_idem (p : α → Bool) (l : List α) :
    (l.filter p).filter p = l.filter p := by
  induction l with
  | nil => rfl
  | cons a as ih =>
    by_cases h : p a = true <;> simp [List.filter_cons, h, ih]

theorem filter_eq_nil_of_false (p : α → Bool) (l : List α) (h : ∀ a ∈ l, p a = false) :
    l.filter p = [] := by
  induction l with
  | nil => rfl
  | cons a as ih =>
    simp [List.filter_cons, h a (List.mem_cons_self _ _),
      ih (fun b hb => h b (List.mem_cons_of_mem _ hb))]

/-! ### Lemmas about the normalizer and the filter -/

theorem parseRow_some (row : Row) (c : CleanRecord) (h : parseRow row = some c) :
    ∃ d, to_datetime row.date_added = some d ∧
      c.type = row.type ∧ c.date_added = some d ∧ c.year_added = some d.year ∧
      c.month_added = some d.month ∧ c.country = row.country.getD "Unknown" ∧
      c.rating = row.rating.getD "Unknown" ∧ c.duration = row.duration.getD "Unknown" ∧
      c.listed_in = row.listed_in := by
  unfold parseRow at h
  cases hd : to_datetime row.date_added with
  | none => rw [hd] at h; exact absurd h (by simp)
  | some d =>
    rw [hd] at h
    have hx := Option.some.inj h
    subst hx
    exact ⟨d, rfl, rfl, rfl, rfl, rfl, rfl, rfl, rfl, rfl⟩

theorem load_data_origin (raw : List RawRecord) (c : CleanRecord) (hc : c ∈ load_data raw) :
    ∃ r ∈ raw, parseRow (readCsv r) = some c := by
  unfold load_data at hc
  rcases List.mem_filterMap.mp hc with ⟨row, hrow, hp⟩
  rcases List.mem_map.mp ((dedupFirst_mem _ _).mp hrow) with ⟨r, hr, he⟩
  exact ⟨r, hr, he ▸ hp⟩

theorem missing_dates_filterMap (rows : List Row) :
    missing_dates (rows.filterMap parseRow) = 0 := by
  induction rows with
  | nil => rfl
  | cons row rs ih =>
    cases hp : parseRow row with
    | none => simpa [List.filterMap_cons, hp] using ih
    | some c =>
      rcases parseRow_some row c hp with ⟨d, -, -, hdate, -⟩
      simpa [missing_dates, List.filterMap_cons, hp, List.filter_cons, hdate] using ih

theorem missing_dates_load_data (raw : List RawRecord) :
    missing_dates (load_data raw) = 0 :=
  missing_dates_filterMap _

theorem to_datetime_blank (s : String) (h : strTrim s = "") :
    to_datetime (some s) = none := by
  simp [to_datetime, h]

theorem readCell_getD_of_ne (s : String) (hs : s ≠ "") :
    (readCell (some s)).getD "Unknown" = s := by
  unfold readCell
  split
  · rename_i heq
    exact absurd (Option.some.inj heq) hs
  · rfl

theorem keepRow_iff (spec : FilterSpec) (r : CleanRecord) :
    keepRow spec r = true ↔
      (∃ y, r.year_added = some y ∧ spec.yearLo ≤ y ∧ y ≤ spec.yearHi)
        ∧ (∃ t, r.type = some t ∧ t ∈ spec.types) ∧ r.country ∈ spec.countries := by
  unfold keepRow betweenB optIsin
  cases hy : r.year_added <;> cases ht : r.type <;> simp [and_assoc]

theorem keepRow_empty_types (spec : FilterSpec) (h : spec.types = []) (r : CleanRecord) :
    keepRow spec r = false := by
  unfold keepRow optIsin
  cases ht : r.type <;> simp [h]

theorem keepRow_empty_countries (spec : FilterSpec) (h : spec.countries = [])
    (r : CleanRecord) : keepRow spec r = false := by
  unfold keepRow
  simp [h]

/-! ### Concrete fixtures (taken from the spec's scenarios) -/

def specRow1 : RawRecord :=
  { type := some "Movie", date_added := some "September 9, 2019", country := some "",
    rating := some "PG", duration := some "90 min", listed_in := some "Comedies, Dramas" }

def specRow2 : RawRecord :=
  { type := some "Movie", date_added := some "not a date", country := some "US",
    rating := some "PG", duration := some "Unknown", listed_in := some "Dramas" }

def specRows : List RawRecord := [specRow1, specRow2]

def specClean1 : CleanRecord :=
  { type := some "Movie", date_added := some ⟨2019, 9, 9⟩, year_added := some 2019,
    month_added := some 9, country := "Unknown", rating := "PG", duration := "90 min",
    listed_in := some "Comedies, Dramas" }

def mkRec (ty cty dur genres : String) : CleanRecord :=
  { type := some ty, date_added := some ⟨2020, 1, 1⟩, year_added := some 2020,
    month_added := some 1, country := cty, rating := "TV-MA", duration := dur,
    listed_in := some genres }

def tieDf : List CleanRecord :=
  List.replicate 5 (mkRec "Movie" "US" "90 min" "Dramas")
    ++ List.replicate 5 (mkRec "Movie" "IN" "90 min" "Dramas")
    ++ List.replicate 3 (mkRec "Movie" "UK" "90 min" "Dramas")

def tvDf : List CleanRecord :=
  [mkRec "TV Show" "US" "1 Season" "Drama", mkRec "TV Show" "US" "1 Season" "Drama",
   mkRec "TV Show" "US" "3 Seasons" "Drama"]

def unkDf : List CleanRecord :=
  [mkRec "Movie" "Unknown" "90 min" "Dramas", mkRec "Movie" "Unknown" "100 min" "Dramas"]

def unkSpec : FilterSpec :=
  { yearLo := 2019, yearHi := 2021, types := ["Movie", "TV Show"], countries := ["Unknown"] }

def emptyTypesSpec : FilterSpec :=
  { yearLo := 2000, yearHi := 2025, types := [], countries := ["US"] }

def mainSpec : FilterSpec :=
  { yearLo := 2010, yearHi := 2020, types := ["Movie", "TV Show"], countries := ["US", "IN"] }

def bareMovie : CleanRecord := mkRec "Movie" "US" "100" "Dramas"

def badMovie : CleanRecord := mkRec "Movie" "US" "90 mins" "Dramas"

def goodMovie : CleanRecord := mkRec "Movie" "US" "90 min" "Dramas"

def gRec : CleanRecord := mkRec "Movie" "US" "90 min" "Comedies, Dramas, International Movies"

def gNone : CleanRecord :=
  { type := some "Movie", date_added := some ⟨2020, 1, 1⟩, year_added := some 2020,
    month_added := some 1, country := "US", rating := "PG", duration := "90 min",
    listed_in := none }

/-! ### Claim theorems -/

/-- C1: the claim says the dropped-row count is retrievable and drives a
warning whenever at least one row was dropped.  In the code the count
(`missing_dates`) is computed on the dataframe `load_data` has already
cleaned, so it is always `0`: on the spec's own two-row scenario one row
is dropped, the identity `len(clean) + droppedCount = len(deduplicated
raw)` fails for the retrievable count, and the `missing_dates > 0`
warning condition is false even though a row was dropped. -/
theorem c1_missing_dates_always_zero :
    (∀ raw : List RawRecord, missing_dates (load_data raw) = 0) ∧
    (load_data specRows).length = 1 ∧
    (dedupFirst (specRows.map readCsv)).length = 2 ∧
    (load_data specRows).length + missing_dates (load_data specRows)
      ≠ (dedupFirst (specRows.map readCsv)).length ∧
    ¬ 0 < missing_dates (load_data specRows) := by
  refine ⟨fun raw => missing_dates_load_data raw, by decide, by decide, by decide, by decide⟩

/-- C2 counterexample: the claim says every duration other than
`"Unknown"` or `"<N> min"` raises a fatal error; but a bare integer
string such as `"100"` is neither (it is not `"Unknown"` and does not end
in `" min"`), yet the Movie-duration computation accepts it and yields
`100` instead of raising. -/
theorem c2_bare_integer_counterexample :
    bareMovie.type = some "Movie" ∧ bareMovie.duration = "100" ∧
    "100" ≠ "Unknown" ∧ (∀ pre : String, "100" ≠ pre ++ " min") ∧
    durationMinutes [bareMovie] = some [100] := by
  refine ⟨rfl, rfl, by decide, ?_, by decide⟩
  intro pre h
  have hl := congrArg String.length h
  rw [String.length_append] at hl
  have h4 : (" min" : String).length = 4 := rfl
  have h3 : ("100" : String).length = 3 := rfl
  omega

/-- C2 (amended): on the Movie-only subset, `"Unknown"` maps to `0` and
`"<N> min"` to `N` (e.g. `"90 min"` to `90`, and `"90 mins"` raises); the
computation raises a fatal error exactly when some Movie row's duration,
after deleting every occurrence of `" min"`, is neither `"Unknown"` nor
an integer string — in particular a bare integer string such as `"100"`
yields that integer rather than raising. -/
theorem c2_duration_minutes_amended :
    rowMinutes "Unknown" = some 0 ∧ rowMinutes "90 min" = some 90 ∧
    rowMinutes "90 mins" = none ∧ rowMinutes "100" = some 100 ∧
    (∀ df : List CleanRecord,
      durationMinutes df = none ↔ ∃ r ∈ moviesOf df, rowMinutes r.duration = none) ∧
    durationMinutes [goodMovie, badMovie] = none := by
  refine ⟨by decide, by decide, by decide, by decide, ?_, by decide⟩
  intro df
  exact mapMOpt_eq_none_iff _ _

/-- C2 witness: the fatal-error characterization of the amended claim,
instantiated at a concrete one-movie dataframe whose duration is
`"90 mins"`. -/
theorem c2_duration_minutes_amended_witness :
    durationMinutes [badMovie] = none
      ↔ ∃ r ∈ moviesOf [badMovie], rowMinutes r.duration = none :=
  c2_duration_minutes_amended.2.2.2.2.1 [badMovie]

/-- C3: `df_filtered` keeps a record iff its `year_added` is inside the
inclusive year range, its `type` is one of the selected types, and its
`country` is one of the selected countries; an empty type selection or an
empty country selection yields an empty result for every dataset. -/
theorem c3_filter_iff :
    (∀ (df : List CleanRecord) (spec : FilterSpec) (r : CleanRecord),
      r ∈ df_filtered df spec ↔
        r ∈ df ∧ (∃ y, r.year_added = some y ∧ spec.yearLo ≤ y ∧ y ≤ spec.yearHi)
          ∧ (∃ t, r.type = some t ∧ t ∈ spec.types) ∧ r.country ∈ spec.countries) ∧
    (∀ (df : List CleanRecord) (spec : FilterSpec), spec.types = [] →
      df_filtered df spec = []) ∧
    (∀ (df : List CleanRecord) (spec : FilterSpec), spec.countries = [] →
      df_filtered df spec = []) := by
  refine ⟨?_, ?_, ?_⟩
  · intro df spec r
    rw [df_filtered, List.mem_filter]
    exact and_congr_right (fun _ => keepRow_iff spec r)
  · intro df spec h
    exact filter_eq_nil_of_false _ _ (fun r _ => keepRow_empty_types spec h r)
  · intro df spec h
    exact filter_eq_nil_of_false _ _ (fun r _ => keepRow_empty_countries spec h r)

/-- C3 witness: an empty type selection empties a concrete non-empty
dataset. -/
theorem c3_filter_iff_witness : df_filtered tieDf emptyTypesSpec = [] :=
  c3_filter_iff.2.1 tieDf emptyTypesSpec rfl

/-- C4: after normalization, `country`, `rating` and `duration` are
`"Unknown"` exactly when the raw cell was missing or the empty string,
and are the raw value unchanged otherwise; the sentinel then takes part
in grouping and filtering like any other category value (concretely:
`"Unknown"` countries are counted by `top_countries` and selected by
`df_filtered` through the same membership test). -/
theorem c4_unknown_fill :
    (∀ (raw : List RawRecord) (c : CleanRecord), c ∈ load_data raw →
      ∃ r ∈ raw, parseRow (readCsv r) = some c ∧
        ((r.country = none ∨ r.country = some "") → c.country = "Unknown") ∧
        (∀ s, r.country = some s → s ≠ "" → c.country = s) ∧
        ((r.rating = none ∨ r.rating = some "") → c.rating = "Unknown") ∧
        (∀ s, r.rating = some s → s ≠ "" → c.rating = s) ∧
        ((r.duration = none ∨ r.duration = some "") → c.duration = "Unknown") ∧
        (∀ s, r.duration = some s → s ≠ "" → c.duration = s)) ∧
    top_countries unkDf 5 = [("Unknown", 2)] ∧
    df_filtered unkDf unkSpec = unkDf := by
  refine ⟨?_, by decide, by decide⟩
  intro raw c hc
  rcases load_data_origin raw c hc with ⟨r, hr, hp⟩
  rcases parseRow_some _ _ hp with ⟨d, -, -, -, -, -, hcty, hrat, hdur, -⟩
  have hcty2 : c.country = (readCell r.country).getD "Unknown" := hcty
  have hrat2 : c.rating = (readCell r.rating).getD "Unknown" := hrat
  have hdur2 : c.duration = (readCell r.duration).getD "Unknown" := hdur
  refine ⟨r, hr, hp, ?_, ?_, ?_, ?_, ?_, ?_⟩
  · rintro (h1 | h1) <;> rw [hcty2, h1] <;> rfl
  · intro s hrs hs; rw [hcty2, hrs]; exact readCell_getD_of_ne s hs
  · rintro (h1 | h1) <;> rw [hrat2, h1] <;> rfl
  · intro s hrs hs; rw [hrat2, hrs]; exact readCell_getD_of_ne s hs
  · rintro (h1 | h1) <;> rw [hdur2, h1] <;> rfl
  · intro s hrs hs; rw [hdur2, hrs]; exact readCell_getD_of_ne s hs

/-- C4 witness: the origin clause instantiated at the spec's two-row
scenario, whose surviving record has its empty `country` cell filled with
the sentinel. -/
theorem c4_unknown_fill_witness : specClean1.country = "Unknown" := by
  rcases c4_unknown_fill.1 specRows specClean1 (by decide) with ⟨r, hr, -, hemp, -⟩
  rcases List.mem_cons.mp (show r ∈ [specRow1, specRow2] from hr) with rfl | hr2
  · exact hemp (Or.inr rfl)
  · rfl

/-- C5 counterexample: the claim says `seasonCounts` returns its
(season-count, count) pairs sorted by season-count descending; on a
dataframe with two one-season shows and one three-season show the code
returns `[(1, 2), (3, 1)]` — ordered by frequency — which is not sorted
by season-count descending. -/
theorem c5_sort_key_counterexample :
    seasonCounts tvDf = some [((1 : Int), 2), ((3 : Int), 1)] ∧
    ¬ (List.Pairwise (fun p q : Int × Nat => q.1 ≤ p.1)
        [((1 : Int), 2), ((3 : Int), 1)]) := by
  refine ⟨by decide, fun h => ?_⟩
  have h1 := (List.pairwise_cons.mp h).1 ((3 : Int), 1) (List.mem_cons_self _ _)
  have h2 : (3 : Int) ≤ 1 := h1
  omega

/-- C5 (amended): on the TV Show-only subset, `" Season"`/`" Seasons"`
(singular and plural) parse to the integer, `"Unknown"` maps to `0`, and
the result groups by season count and returns (season-count, count)
pairs sorted by count (frequency) descending — not by season-count —
with ties in first-encountered order, truncated to the top 10. -/
theorem c5_season_counts_amended :
    rowSeasons "1 Season" = some 1 ∧ rowSeasons "3 Seasons" = some 3 ∧
    rowSeasons "Unknown" = some 0 ∧
    (∀ (df : List CleanRecord) (l : List (Int × Nat)), seasonCounts df = some l →
      ∃ s, tvSeasons df = some s ∧ l.length ≤ 10 ∧
        l.Pairwise (fun p q => q.2 ≤ p.2) ∧
        (∀ p ∈ l, p.1 ∈ s ∧ p.2 = countEq s p.1) ∧
        l.Pairwise (fun p q => p.2 = q.2 → firstIdx s p.1 < firstIdx s q.1)) ∧
    seasonCounts tvDf = some [((1 : Int), 2), ((3 : Int), 1)] := by
  refine ⟨by decide, by decide, by decide, ?_, by decide⟩
  intro df l h
  cases hs : tvSeasons df with
  | none => rw [seasonCounts, hs] at h; exact absurd h (by simp)
  | some s =>
    rw [seasonCounts, hs] at h
    have hl : (value_counts s).take 10 = l := by simpa using h
    subst hl
    refine ⟨s, rfl, ?_, ?_, ?_, ?_⟩
    · rw [List.length_take]; exact min_le_left _ _
    · exact List.Pairwise.sublist (List.take_sublist _ _) (value_counts_sorted s)
    · intro p hp
      have h2 := (value_counts_mem s p).mp ((List.take_sublist 10 _).subset hp)
      exact ⟨h2.1, h2.2⟩
    · exact List.Pairwise.sublist (List.take_sublist _ _) (value_counts_ties s)

/-- C5 witness: the amended characterization instantiated at the
three-show dataframe. -/
theorem c5_season_counts_amended_witness :
    ∃ s, tvSeasons tvDf = some s ∧
      ([((1 : Int), 2), ((3 : Int), 1)] : List (Int × Nat)).length ≤ 10 ∧
      List.Pairwise (fun p q : Int × Nat => q.2 ≤ p.2)
        [((1 : Int), 2), ((3 : Int), 1)] ∧
      (∀ p ∈ ([((1 : Int), 2), ((3 : Int), 1)] : List (Int × Nat)),
        p.1 ∈ s ∧ p.2 = countEq s p.1) ∧
      List.Pairwise (fun p q : Int × Nat => p.2 = q.2 → firstIdx s p.1 < firstIdx s q.1)
        [((1 : Int), 2), ((3 : Int), 1)] :=
  c5_season_counts_amended.2.2.2.1 tvDf [((1 : Int), 2), ((3 : Int), 1)] (by decide)

/-- C6: `top_genres` splits `listed_in` on commas, trims each token, and
counts each token as one observation; it returns at most `n` entries,
the returned counts sum to at most the total number of genre tokens of
the filtered set, and absent genre text contributes no tokens. -/
theorem c6_top_genres_bounds :
    (∀ (df : List CleanRecord) (n : Nat),
      (top_genres df n).length ≤ n ∧
      ((top_genres df n).map (fun p => p.2)).sum ≤ (genreTokens df).length ∧
      (∀ p ∈ top_genres df n,
        p.1 ∈ genreTokens df ∧ p.2 = countEq (genreTokens df) p.1)) ∧
    recordTokens gRec = ["Comedies", "Dramas", "International Movies"] ∧
    (∀ r : CleanRecord, r.listed_in = none → recordTokens r = []) ∧
    genreTokens [gRec, gNone] = ["Comedies", "Dramas", "International Movies"] := by
  refine ⟨?_, by decide, ?_, by decide⟩
  · intro df n
    refine ⟨?_, ?_, ?_⟩
    · rw [top_genres, List.length_take]; exact min_le_left _ _
    · rw [top_genres]
      calc (((value_counts (genreTokens df)).take n).map (fun p => p.2)).sum
          ≤ ((value_counts (genreTokens df)).map (fun p => p.2)).sum :=
            take_map_sum_le _ n
        _ = (genreTokens df).length := value_counts_sum _
    · intro p hp
      have h2 := (value_counts_mem _ p).mp ((List.take_sublist n _).subset hp)
      exact ⟨h2.1, h2.2⟩
  · intro r h
    simp [recordTokens, h]

/-- C6 witness: the bounds instantiated at a concrete two-record
dataframe with three genre tokens. -/
theorem c6_top_genres_bounds_witness : (top_genres [gRec, gNone] 2).length ≤ 2 :=
  (c6_top_genres_bounds.1 [gRec, gNone] 2).1

/-- C7: every record of the clean dataset has a resolved (non-null)
`date_added` with `year_added`/`month_added` derived from it (so the
non-null-together biconditional holds), every clean record originates in
a raw row whose date resolved, and absent, empty, or whitespace-only
dates never resolve. -/
theorem c7_clean_dates_invariant :
    (∀ (raw : List RawRecord) (c : CleanRecord), c ∈ load_data raw →
      c.date_added.isSome = true ∧
      ((c.year_added.isSome = true ∧ c.month_added.isSome = true)
        ↔ c.date_added.isSome = true) ∧
      (∃ d, c.date_added = some d ∧ c.year_added = some d.year ∧
        c.month_added = some d.month) ∧
      ∃ r ∈ raw, parseRow (readCsv r) = some c ∧
        to_datetime (readCsv r).date_added ≠ none) ∧
    to_datetime none = none ∧
    (∀ s : String, strTrim s = "" → to_datetime (some s) = none) ∧
    (∀ r : RawRecord, (r.date_added = none ∨ r.date_added = some "") →
      to_datetime (readCsv r).date_added = none) := by
  refine ⟨?_, rfl, fun s h => to_datetime_blank s h, ?_⟩
  · intro raw c hc
    rcases load_data_origin raw c hc with ⟨r, hr, hp⟩
    rcases parseRow_some _ _ hp with ⟨d, hdt, -, hdate, hyear, hmonth, -⟩
    refine ⟨?_, ?_, ⟨d, hdate, hyear, hmonth⟩, ⟨r, hr, hp, ?_⟩⟩
    · rw [hdate]; rfl
    · constructor
      · intro _; rw [hdate]; rfl
      · intro _; exact ⟨by rw [hyear]; rfl, by rw [hmonth]; rfl⟩
    · rw [hdt]; simp
  · intro r h
    have heq : (readCsv r).date_added = readCell r.date_added := rfl
    rcases h with h1 | h1 <;> rw [heq, h1] <;> rfl

/-- C7 witness: the invariant instantiated at the spec's scenario, whose
surviving record carries its resolved date. -/
theorem c7_clean_dates_invariant_witness : specClean1.date_added.isSome = true :=
  (c7_clean_dates_invariant.1 specRows specClean1 (by decide)).1

/-- C8: filtering an already-filtered set with the same spec returns the
identical list. -/
theorem c8_filter_idempotent (df : List CleanRecord) (spec : FilterSpec) :
    df_filtered (df_filtered df spec) spec = df_filtered df spec :=
  filter_idem _ _

/-- C8 witness: idempotence at a concrete dataframe and spec. -/
theorem c8_filter_idempotent_witness :
    df_filtered (df_filtered tieDf mainSpec) mainSpec = df_filtered tieDf mainSpec :=
  c8_filter_idempotent tieDf mainSpec

/-- C9: `top_countries` groups by country (each key appears once with its
exact multiplicity), orders by count descending with ties broken by the
first-encountered position of the country in the filtered set, and
returns at most `n` entries; the spec's tie scenario (`US`:5 before
`IN`:5, `UK`:3) returns `[US:5, IN:5]` for `n = 2`. -/
theorem c9_top_countries_spec :
    (∀ (df : List CleanRecord) (n : Nat),
      (top_countries df n).length ≤ n ∧
      (∀ p ∈ top_countries df n,
        p.1 ∈ df.map (fun r => r.country)
          ∧ p.2 = countEq (df.map (fun r => r.country)) p.1) ∧
      (top_countries df n).Pairwise (fun p q => q.2 ≤ p.2) ∧
      (top_countries df n).Pairwise
        (fun p q => p.2 = q.2 →
          firstIdx (df.map (fun r => r.country)) p.1
            < firstIdx (df.map (fun r => r.country)) q.1) ∧
      ((top_countries df n).map (fun p => p.1)).Nodup) ∧
    top_countries tieDf 2 = [("US", 5), ("IN", 5)] := by
  refine ⟨?_, by decide⟩
  intro df n
  refine ⟨?_, ?_, ?_, ?_, ?_⟩
  · rw [top_countries, List.length_take]; exact min_le_left _ _
  · intro p hp
    have h2 := (value_counts_mem _ p).mp ((List.take_sublist n _).subset hp)
    exact ⟨h2.1, h2.2⟩
  · exact List.Pairwise.sublist (List.take_sublist _ _) (value_counts_sorted _)
  · exact List.Pairwise.sublist (List.take_sublist _ _) (value_counts_ties _)
  · rw [top_countries]
    have hsub : (List.take n (value_counts (df.map (fun r => r.country)))).Sublist
        (value_counts (df.map (fun r => r.country))) := List.take_sublist n _
    exact List.Nodup.sublist (hsub.map (fun p => p.1)) (value_counts_keys_nodup _)

/-- C9 witness: the bounds instantiated at the spec's tie scenario. -/
theorem c9_top_countries_spec_witness : (top_countries tieDf 2).length ≤ 2 :=
  (c9_top_countries_spec.1 tieDf 2).1

/-- C10: the filtered set is an order-preserving subsequence of the clean
dataset — filtering never reorders, never duplicates (multiplicities can
only shrink), and preserves duplicate-freeness. -/
theorem c10_filter_subsequence (df : List CleanRecord) (spec : FilterSpec) :
    (df_filtered df spec).Sublist df ∧
    (∀ r : CleanRecord, countEq (df_filtered df spec) r ≤ countEq df r) ∧
    (df.Nodup → (df_filtered df spec).Nodup) := by
  refine ⟨List.filter_sublist df, ?_, ?_⟩
  · intro r
    unfold countEq df_filtered
    exact List.Sublist.length_le (List.Sublist.filter _ (List.filter_sublist df))
  · intro h
    exact List.Nodup.sublist (List.filter_sublist df) h

/-- C10 witness: the subsequence property at a concrete dataframe and
spec. -/
theorem c10_filter_subsequence_witness : (df_filtered tieDf mainSpec).Sublist tieDf :=
  (c10_filter_subsequence tieDf mainSpec).1
